import Mathlib

/-!
Shallow embedding of the `httprouter` dispatch layer (`src/router.rs`) and of
the radix-tree / path-cleaning collaborators it calls into.

`src/router.rs` is the only source file of the repository that is available;
the tree module (`Node::add_route`, `Node::get_value`,
`Node::find_case_insensitive_path`) and the path module (`clean_path`) are
referenced by it but their code is not present.  Those operations are
modelled from the spec (each such definition carries a doc comment starting
with `Modelled from the spec:`); everything in the `Router` namespace is
translated directly from `src/router.rs`.
-/

deriving instance DecidableEq for Except

/-- HTTP method, mirroring `http::Method` (an interned method name). -/
structure Method where
  name : String
deriving DecidableEq

def Method.GET : Method := ⟨"GET"⟩

def Method.HEAD : Method := ⟨"HEAD"⟩

def Method.OPTIONS : Method := ⟨"OPTIONS"⟩

def Method.POST : Method := ⟨"POST"⟩

def Method.PUT : Method := ⟨"PUT"⟩

def Method.PATCH : Method := ⟨"PATCH"⟩

def Method.DELETE : Method := ⟨"DELETE"⟩

def Method.CONNECT : Method := ⟨"CONNECT"⟩

/-- `Method::to_string`. -/
def Method.toString (m : Method) : String := m.name

/-- A single extracted path parameter (`Param { key, value }`). -/
structure Param where
  key : String
  value : String
deriving DecidableEq

/-- Modelled from the spec: the successful-match result of `get_value`
(`RouteLookup` of `src/tree.rs`, not under `src/`): the stored handler and
the parameters for this request, ordered by path position. -/
structure RouteLookup (T : Type) where
  value : T
  params : List Param
deriving DecidableEq

/-- Modelled from the spec: the per-method radix tree (`Node` of
`src/tree.rs`, not under `src/`).  The tree is modelled extensionally by the
list of registered `(pattern, handler)` routes; `add_route`, `get_value`
and `find_case_insensitive_path` below realise §4.1–§4.3 of the spec over
this representation. -/
structure Node (T : Type) where
  routes : List (String × T)
deriving DecidableEq

/-- `Node::default`: the empty tree. -/
def Node.empty {T : Type} : Node T := ⟨[]⟩

/-- Split a character list at every `'/'` (the separators are dropped,
empty segments are kept), e.g. `"/user/:id"` becomes `["", "user", ":id"]`. -/
def splitSlash : List Char → List (List Char)
  | [] => [[]]
  | c :: rest =>
    if c = '/' then [] :: splitSlash rest
    else
      match splitSlash rest with
      | s :: ss => (c :: s) :: ss
      | [] => [[c]]

/-- Rejoin slash-separated segments into a path character list. -/
def joinSegs : List (List Char) → List Char
  | [] => []
  | [s] => s
  | s :: ss => s ++ '/' :: joinSegs ss

/-- A pattern segment is a wildcard when it names a `:param` or a `*catchall`. -/
def isWildSeg : List Char → Bool
  | ':' :: _ => true
  | '*' :: _ => true
  | _ => false

/-- Modelled from the spec: the exact-match traversal of §4.2, phrased on the
slash-separated segments of one route pattern against those of the request
path.  Static segments must match exactly; `:name` consumes one non-empty
segment; a final `*name` consumes the whole remainder of the path including
the `'/'` in front of it.  Returns the extracted parameters in path order on
a full match. -/
def matchSegs (pat path : List (List Char)) : Option (List Param) :=
  match pat, path with
  | [], [] => some []
  | ['*' :: name], ss =>
    if ss.isEmpty then none
    else some [⟨String.mk name, String.mk ('/' :: joinSegs ss)⟩]
  | (':' :: name) :: pn, s :: ss =>
    if s.isEmpty then none
    else (matchSegs pn ss).map (fun ps => ⟨String.mk name, String.mk s⟩ :: ps)
  | s :: pn, s' :: ss =>
    if isWildSeg s then none
    else if s = s' then matchSegs pn ss else none
  | _, _ => none

/-- Modelled from the spec: match a route pattern against a request path. -/
def matchPattern (pat path : String) : Option (List Param) :=
  matchSegs (splitSlash pat.toList) (splitSlash path.toList)

/-- The trailing-slash toggle used by the TSR check and by the
`fix_trailing_slash` branch of the case-insensitive finder: remove a
trailing `'/'` when present (and the path is longer than `"/"`), add one
otherwise. -/
def toggleSlash (path : String) : String :=
  if path.length > 1 ∧ path.toList.getLast? = some '/'
  then String.mk path.toList.dropLast
  else path ++ "/"

/-- Modelled from the spec: `Node::get_value` (§4.2, not under `src/`).
Walks the tree for the path; on a full match returns the handler and the
parameters; on a miss returns `Err(tsr)` where `tsr` is true exactly when
the path with its trailing slash toggled would match a registered route. -/
def Node.get_value {T : Type} (n : Node T) (path : String) : Except Bool (RouteLookup T) :=
  match n.routes.findSome? (fun rt => (matchPattern rt.1 path).map (fun ps => ⟨rt.2, ps⟩)) with
  | some rl => Except.ok rl
  | none =>
    Except.error (n.routes.any (fun rt => (matchPattern rt.1 (toggleSlash path)).isSome))

/-- Case-insensitive equality of two segments (ASCII case folding). -/
def ciEqSeg (s s' : List Char) : Bool :=
  s.map Char.toLower = s'.map Char.toLower

/-- Modelled from the spec: the case-insensitive traversal of §4.3, phrased
on segments.  Static segments compare ASCII-case-insensitively and the
output is rebuilt from the pattern's canonical case; parameter and
catch-all values are copied verbatim from the input path. -/
def ciMatchSegs (pat path : List (List Char)) : Option (List (List Char)) :=
  match pat, path with
  | [], [] => some []
  | ['*' :: _], ss => if ss.isEmpty then none else some ss
  | (':' :: _) :: pn, s :: ss =>
    if s.isEmpty then none
    else (ciMatchSegs pn ss).map (fun cs => s :: cs)
  | s :: pn, s' :: ss =>
    if isWildSeg s then none
    else if ciEqSeg s s' then (ciMatchSegs pn ss).map (fun cs => s :: cs) else none
  | _, _ => none

/-- Modelled from the spec: `Node::find_case_insensitive_path` (§4.3, not
under `src/`).  Looks for a route matching the path up to ASCII case and
returns the canonical-case path; when `fix_trailing_slash` is set, a match
reachable by toggling the trailing slash is also accepted. -/
def Node.find_case_insensitive_path {T : Type} (n : Node T) (path : String)
    (fix_trailing_slash : Bool) : Option String :=
  match n.routes.findSome?
      (fun rt => ciMatchSegs (splitSlash rt.1.toList) (splitSlash path.toList)) with
  | some cs => some (String.mk (joinSegs cs))
  | none =>
    if fix_trailing_slash then
      (n.routes.findSome?
          (fun rt => ciMatchSegs (splitSlash rt.1.toList)
            (splitSlash (toggleSlash path).toList))).map
        (fun cs => String.mk (joinSegs cs))
    else none

/-- A pattern is well-formed when it is non-empty, starts with `'/'`, and
any catch-all segment is the final path element (spec §4.1 failure
conditions). -/
def patternValid (p : String) : Bool :=
  match p.toList with
  | '/' :: _ => (splitSlash p.toList).dropLast.all (fun s => s.head? ≠ some '*')
  | _ => false

/-- Modelled from the spec: two patterns conflict when they are identical,
or when they first differ at a segment where one side is a wildcard
(ambiguous wildcard names at one branch point, or a wildcard alongside a
static alternative — spec §3 invariants and §4.1 step 3). -/
def segConflict : List (List Char) → List (List Char) → Bool
  | [], [] => true
  | a :: as, b :: bs =>
    if a = b then segConflict as bs
    else isWildSeg a || isWildSeg b
  | _, _ => false

/-- Modelled from the spec: `Node::add_route` (§4.1, not under `src/`).
Fails (the Rust code panics, modelled as `none`) on a malformed pattern or
on a conflict with an already-registered route; otherwise records the
route. -/
def Node.add_route {T : Type} (n : Node T) (path : String) (handle : T) : Option (Node T) :=
  if !patternValid path then none
  else if n.routes.any (fun rt => segConflict (splitSlash path.toList) (splitSlash rt.1.toList))
  then none
  else some ⟨n.routes ++ [(path, handle)]⟩

/-- Modelled from the spec: `clean_path` (`src/path.rs`, not under `src/`):
collapse empty and `.` segments, resolve `..`, keep the path rooted and
preserve a trailing slash. -/
def clean_path (path : String) : String :=
  match path.toList with
  | [] => "/"
  | cs =>
    let stack := (splitSlash cs).foldl
      (fun acc s =>
        if s = [] ∨ s = ['.'] then acc
        else if s = ['.', '.'] then acc.dropLast
        else acc ++ [s]) []
    let base : List Char := stack.foldl (fun acc s => acc ++ '/' :: s) []
    let base := if base = [] then ['/'] else base
    let base := if cs.getLast? = some '/' ∧ base ≠ ['/'] then base ++ ['/'] else base
    String.mk base

/-- The per-method tree map (`trees: HashMap<Method, Node<T>>`), modelled as
an association list; `HashMap` keys are distinct, which theorems carry as a
`Nodup` hypothesis where it matters. -/
abbrev Trees (T : Type) := List (Method × Node T)

/-- `HashMap::get` on the tree map: the tree registered for a method. -/
def getTree {T : Type} : Trees T → Method → Option (Node T)
  | [], _ => none
  | kv :: rest, m => if kv.1 = m then some kv.2 else getTree rest m

/-- `HashMap` update as performed by `entry(method).or_insert(..)` followed
by mutation: replace the tree stored for the method, or append a binding. -/
def updateTree {T : Type} : Trees T → Method → Node T → Trees T
  | [], m, t => [(m, t)]
  | kv :: rest, m, t => if kv.1 = m then (m, t) :: rest else kv :: updateTree rest m t

/-- `Router<T>` of `src/router.rs`: the per-method trees and the behaviour
switches. -/
structure Router (T : Type) where
  trees : Trees T
  redirect_trailing_slash : Bool
  redirect_fixed_path : Bool
  handle_method_not_allowed : Bool
  handle_options : Bool
  global_options : Option T
  global_allowed : String
  not_found : Option T
  method_not_allowed : Option T
deriving DecidableEq

/-- `Router::default()`. -/
def Router.default {T : Type} : Router T where
  trees := []
  redirect_trailing_slash := true
  redirect_fixed_path := true
  handle_method_not_allowed := true
  handle_options := true
  global_allowed := ""
  global_options := none
  method_not_allowed := none
  not_found := none

/-- `path.starts_with('/')`. -/
def startsWithSlash (p : String) : Bool :=
  match p.toList with
  | '/' :: _ => true
  | _ => false

/-- `Router::handle`: panics (modelled as `none`) when the path does not
begin with `'/'`; otherwise delegates to `add_route` on the method's tree,
creating the tree when absent (`entry(method).or_insert_with(Node::default)`).
A registration conflict inside `add_route` also panics (`none`). -/
def Router.handle {T : Type} (r : Router T) (method : Method) (path : String)
    (handle : T) : Option (Router T) :=
  if !startsWithSlash path then none
  else
    match ((getTree r.trees method).getD Node.empty).add_route path handle with
    | some t => some { r with trees := updateTree r.trees method t }
    | none => none

/-- `router.get(path, handle)` — shortcut for `handle(Method::GET, ..)`. -/
def Router.get {T : Type} (r : Router T) (path : String) (handle : T) : Option (Router T) :=
  r.handle Method.GET path handle

/-- `router.post(path, handle)` — shortcut for `handle(Method::POST, ..)`. -/
def Router.post {T : Type} (r : Router T) (path : String) (handle : T) : Option (Router T) :=
  r.handle Method.POST path handle

/-- `Router::lookup`: look the path up in the method's tree, and report a
plain miss (`Err(false)`) when no tree exists for the method
(`.map(|n| n.get_value(path)).unwrap_or(Err(false))`). -/
def Router.lookup {T : Type} (r : Router T) (method : Method) (path : String) :
    Except Bool (RouteLookup T) :=
  match getTree r.trees method with
  | some n => n.get_value path
  | none => Except.error false

/-- Modelled from the spec: `get_value` is read-only ("Lookups never mutate
the tree"), so the state-passing form of a tree lookup returns the tree
unchanged next to the result. -/
def Node.get_value_st {T : Type} (n : Node T) (path : String) :
    Except Bool (RouteLookup T) × Node T :=
  (n.get_value path, n)

/-- State-passing form of `Router::lookup` (the Rust function takes
`&mut self` and hands the tree to `get_value` via `get_mut`): the router
handed back is the input router with the method's tree replaced by the tree
`get_value` returns. -/
def Router.lookup_st {T : Type} (r : Router T) (method : Method) (path : String) :
    Except Bool (RouteLookup T) × Router T :=
  match getTree r.trees method with
  | some n =>
    let (res, n') := n.get_value_st path
    (res, { r with trees := updateTree r.trees method n' })
  | none => (Except.error false, r)

/-- The collection loop of `Router::allowed` for a concrete path: iterate
the tree map's entries, skip the requested method and `OPTIONS`, collect
(in iteration order) the display names of methods whose tree matches the
path. -/
def allowedLoop {T : Type} (trees : Trees T) (path : String) (req_method : Method) :
    Trees T → List String
  | [] => []
  | kv :: rest =>
    if kv.1 = req_method ∨ kv.1 = Method.OPTIONS then allowedLoop trees path req_method rest
    else
      match getTree trees kv.1 with
      | some tree =>
        if (tree.get_value path).isOk
        then kv.1.toString :: allowedLoop trees path req_method rest
        else allowedLoop trees path req_method rest
      | none => allowedLoop trees path req_method rest

/-- The final step of `Router::allowed`
(`if !allowed.is_empty() { allowed.push(Method::OPTIONS.to_string()) }`). -/
def appendOptions (allowed : List String) : List String :=
  if !allowed.isEmpty then allowed ++ [Method.OPTIONS.toString] else allowed

/-- `Router::allowed`: the `Allow` string for a path — `"*"` lists every
registered method except `OPTIONS`; otherwise the methods other than the
request's and `OPTIONS` whose tree matches the path; `OPTIONS` is appended
when anything was collected, and the tokens are joined with `", "`. -/
def Router.allowed {T : Type} (r : Router T) (path : String) (req_method : Method) : String :=
  String.intercalate ", "
    (appendOptions
      (if path = "*" then
        (r.trees.filter (fun kv => kv.1 ≠ Method.OPTIONS)).map (fun kv => kv.1.toString)
      else allowedLoop r.trees path req_method r.trees))

/-- The observable outcome of `Router::serve`
(`impl Router<BoxedHandler>::serve`), with response construction abstracted
into one constructor per exit point of the Rust function. -/
inductive ServeOutcome (T : Type) where
  | matched (params : List Param) (value : T)
  | redirect (location : String) (code : Nat)
  | customOptions (handler : T)
  | autoOptions (allow : String)
  | custom405 (handler : T)
  | auto405 (allow : String)
  | customNotFound (handler : T)
  | notFound404
deriving DecidableEq

/-- The `not_found` tail of `Router::serve`. -/
def Router.notFoundOutcome {T : Type} (r : Router T) : ServeOutcome T :=
  match r.not_found with
  | some h => ServeOutcome.customNotFound h
  | none => ServeOutcome.notFound404

/-- The fall-through part of `Router::serve` after the tree lookup missed
(or no redirect was issued): automatic `OPTIONS` replies, `405` handling,
then `not_found`. -/
def Router.serveFallback {T : Type} (r : Router T) (method : Method) (path : String) :
    ServeOutcome T :=
  if method = Method.OPTIONS ∧ r.handle_options then
    let allow := r.allowed path Method.OPTIONS
    if allow ≠ "" then
      match r.global_options with
      | some h => ServeOutcome.customOptions h
      | none => ServeOutcome.autoOptions allow
    else r.notFoundOutcome
  else if r.handle_method_not_allowed then
    let allow := r.allowed path method
    if !allow.isEmpty then
      match r.method_not_allowed with
      | some h => ServeOutcome.custom405 h
      | none => ServeOutcome.auto405 allow
    else r.notFoundOutcome
  else r.notFoundOutcome

/-- `Router::serve`: look the path up in the tree for the request method;
on a hit run the handler with the extracted parameters; on a miss issue the
trailing-slash or fixed-case redirect (never for `CONNECT` or the root
path), with status 301 for `GET` and 308 otherwise; otherwise fall through
to the `OPTIONS` / `405` / `not_found` tail. -/
def Router.serve {T : Type} (r : Router T) (method : Method) (path : String) :
    ServeOutcome T :=
  match getTree r.trees method with
  | some root =>
    match root.get_value path with
    | Except.ok lookup => ServeOutcome.matched lookup.params lookup.value
    | Except.error tsr =>
      if method ≠ Method.CONNECT ∧ path ≠ "/" then
        let code := if method = Method.GET then 301 else 308
        if tsr && r.redirect_trailing_slash then
          let path :=
            if path.length > 1 ∧ path.toList.getLast? = some '/'
            then String.mk path.toList.dropLast
            else path ++ "/"
          ServeOutcome.redirect path code
        else if r.redirect_fixed_path then
          match root.find_case_insensitive_path (clean_path path) r.redirect_trailing_slash with
          | some fixed_path => ServeOutcome.redirect fixed_path code
          | none => r.serveFallback method path
        else r.serveFallback method path
      else r.serveFallback method path
  | none => r.serveFallback method path

/-- Spec-side collection (the amended reading of the spec sentence): the
display names of the registered methods other than the request's method and
other than `OPTIONS` whose tree matches the path, in registration order. -/
def allowedSpecList {T : Type} (r : Router T) (path : String) (req_method : Method) :
    List String :=
  (r.trees.filter (fun kv =>
    decide (kv.1 ≠ req_method) && decide (kv.1 ≠ Method.OPTIONS) &&
      (kv.2.get_value path).isOk)).map (fun kv => kv.1.toString)

/-- Spec-side characterization of `Router::allowed` for a concrete path:
the collected methods comma-space-joined, with `OPTIONS` appended as the
last token exactly when the collection is non-empty; an empty collection
yields the empty string. -/
def allowedSpec {T : Type} (r : Router T) (path : String) (req_method : Method) : String :=
  String.intercalate ", "
    (if (allowedSpecList r path req_method).isEmpty then []
     else allowedSpecList r path req_method ++ [Method.OPTIONS.toString])

/-- A one-route tree for the path `/x`. -/
def nodeX : Node Nat := ⟨[("/x", 0)]⟩

/-- A one-route tree for the path `/foo`. -/
def nodeFoo : Node Nat := ⟨[("/foo", 0)]⟩

/-- A one-route tree for the mixed-case path `/Foo`. -/
def nodeCased : Node Nat := ⟨[("/Foo", 0)]⟩

/-- A router whose only registered method is `OPTIONS`. -/
def rOptionsOnly : Router Nat := { Router.default with trees := [(Method.OPTIONS, nodeX)] }

/-- A router with `/x` registered for `GET` and for `POST`. -/
def rGetPost : Router Nat :=
  { Router.default with trees := [(Method.GET, nodeX), (Method.POST, nodeX)] }

/-- A router with `/x` registered for `GET` only. -/
def rX : Router Nat := { Router.default with trees := [(Method.GET, nodeX)] }

/-- A router with `/foo` registered for `GET`. -/
def rFoo : Router Nat := { Router.default with trees := [(Method.GET, nodeFoo)] }

/-- A router with `/Foo` registered for `POST`. -/
def rCased : Router Nat := { Router.default with trees := [(Method.POST, nodeCased)] }

/-- A router with `/foo` registered for `CONNECT`. -/
def rConnect : Router Nat := { Router.default with trees := [(Method.CONNECT, nodeFoo)] }

/-- The router obtained from `Router::default` by registering `/user/:id`
for `GET`. -/
def rUser : Router Nat := { Router.default with trees := [(Method.GET, ⟨[("/user/:id", 0)]⟩)] }

lemma getTree_updateTree_self {T : Type} (l : Trees T) (m : Method) (t : Node T) :
    getTree (updateTree l m t) m = some t := by
  induction l with
  | nil => simp [updateTree, getTree]
  | cons kv rest ih => by_cases h : kv.1 = m <;> simp [updateTree, getTree, h, ih]

lemma getTree_updateTree_ne {T : Type} (l : Trees T) (m m' : Method) (t : Node T)
    (h : m' ≠ m) : getTree (updateTree l m t) m' = getTree l m' := by
  induction l with
  | nil => simp [updateTree, getTree, Ne.symm h]
  | cons kv rest ih =>
    by_cases hk : kv.1 = m
    · simp [updateTree, getTree, hk, Ne.symm h]
    · by_cases hk' : kv.1 = m' <;> simp [updateTree, getTree, hk, hk', ih, h]

lemma updateTree_self {T : Type} (l : Trees T) (m : Method) (n : Node T)
    (h : getTree l m = some n) : updateTree l m n = l := by
  induction l with
  | nil => simp [getTree] at h
  | cons kv rest ih =>
    by_cases hk : kv.1 = m
    · rw [getTree, if_pos hk] at h
      have hn : kv.2 = n := by injection h
      rw [updateTree, if_pos hk, ← hn, ← hk]
    · rw [getTree, if_neg hk] at h
      rw [updateTree, if_neg hk, ih h]

lemma lookupStPreserves {T : Type} (r : Router T) (m : Method) (p : String) :
    (Router.lookup_st r m p).2 = r := by
  unfold Router.lookup_st Node.get_value_st
  cases hroot : getTree r.trees m with
  | none => rfl
  | some n =>
    simp only
    have := updateTree_self r.trees m n hroot
    cases r
    simp_all

lemma getTree_mem_nodup {T : Type} {l : Trees T} (hnd : (l.map Prod.fst).Nodup)
    {kv : Method × Node T} (hm : kv ∈ l) : getTree l kv.1 = some kv.2 := by
  induction l with
  | nil => cases hm
  | cons hd tl ih =>
    have hnd' : hd.1 ∉ tl.map Prod.fst ∧ (tl.map Prod.fst).Nodup := by
      rw [List.map_cons, List.nodup_cons] at hnd
      exact hnd
    rcases List.mem_cons.mp hm with rfl | hm'
    · simp [getTree]
    · have hne : hd.1 ≠ kv.1 := by
        intro he
        apply hnd'.1
        rw [he]
        exact List.mem_map_of_mem Prod.fst hm'
      simp only [getTree, if_neg hne]
      exact ih hnd'.2 hm'

lemma allowedLoop_eq_filter {T : Type} (trees : Trees T) (path : String) (req : Method)
    (all : Trees T) (h : ∀ kv ∈ all, getTree trees kv.1 = some kv.2) :
    allowedLoop trees path req all =
      (all.filter (fun kv =>
        decide (kv.1 ≠ req) && decide (kv.1 ≠ Method.OPTIONS) &&
          (kv.2.get_value path).isOk)).map (fun kv => kv.1.toString) := by
  induction all with
  | nil => rfl
  | cons kv rest ih =>
    have hhead := h kv (List.mem_cons_self _ _)
    have htail : ∀ kv' ∈ rest, getTree trees kv'.1 = some kv'.2 :=
      fun kv' hm => h kv' (List.mem_cons_of_mem _ hm)
    by_cases h1 : kv.1 = req ∨ kv.1 = Method.OPTIONS
    · have hfalse : (decide (kv.1 ≠ req) && decide (kv.1 ≠ Method.OPTIONS) &&
          (kv.2.get_value path).isOk) = false := by
        rcases h1 with h1 | h1 <;> simp [h1]
      rw [allowedLoop, if_pos h1, ih htail, List.filter_cons, hfalse]
      simp
    · push_neg at h1
      rw [allowedLoop, if_neg (by tauto), hhead]
      cases hok : (Node.get_value kv.2 path).isOk <;>
        · rw [ih htail, List.filter_cons]
          simp [h1.1, h1.2, hok]

lemma allowedLoop_eq_spec {T : Type} (r : Router T) (path : String) (req : Method)
    (hnd : (r.trees.map Prod.fst).Nodup) :
    allowedLoop r.trees path req r.trees = allowedSpecList r path req :=
  allowedLoop_eq_filter r.trees path req r.trees (fun _ hkv => getTree_mem_nodup hnd hkv)

lemma serveFallback_ne_redirect {T : Type} (r : Router T) (m : Method) (p : String)
    (loc : String) (code : Nat) : r.serveFallback m p ≠ ServeOutcome.redirect loc code := by
  unfold Router.serveFallback Router.notFoundOutcome
  intro hcontra
  repeat' split at hcontra
  all_goals simp_all [ite_eq_iff]

/-- C1 (counterexample): the claim says `allowed(path, m)` collects every
registered method different from `m` whose tree matches the path, but the
code also skips `OPTIONS` itself: with only an `OPTIONS` tree registered
(matching `/x`), `allowed "/x" GET` is the empty string even though
`OPTIONS` differs from `GET` and its `get_value` succeeds. -/
theorem allowed_claim_counterexample :
    Router.allowed rOptionsOnly "/x" Method.GET = "" ∧
    getTree rOptionsOnly.trees Method.OPTIONS = some nodeX ∧
    (nodeX.get_value "/x").isOk = true ∧
    Method.OPTIONS ≠ Method.GET ∧ ("/x" : String) ≠ "*" := by
  refine ⟨by decide, by decide, by decide, by decide, by decide⟩

/-- C1 (amended): for every path other than `"*"` and every request method,
`Router::allowed` returns exactly the registered methods that are different
from the request method AND different from `OPTIONS` and whose tree's
`get_value(path)` returns `Ok`, joined by `", "`, with `"OPTIONS"` appended
as the last token iff that collection is non-empty (the `Nodup` hypothesis
is the `HashMap` distinct-keys invariant of the tree map). -/
theorem allowed_amended {T : Type} (r : Router T) (path : String) (req_method : Method)
    (hstar : path ≠ "*") (hnd : (r.trees.map Prod.fst).Nodup) :
    r.allowed path req_method = allowedSpec r path req_method := by
  unfold Router.allowed allowedSpec appendOptions
  rw [if_neg hstar, allowedLoop_eq_spec r path req_method hnd]
  cases hempty : (allowedSpecList r path req_method).isEmpty with
  | true =>
    have hnil : allowedSpecList r path req_method = [] := by
      simpa [List.isEmpty_iff] using hempty
    simp [hempty, hnil]
  | false => simp [hempty]

/-- C1 (witness for the amended theorem at a concrete router). -/
theorem allowed_amended_witness :
    Router.allowed rGetPost "/x" Method.GET = allowedSpec rGetPost "/x" Method.GET ∧
    Router.allowed rGetPost "/x" Method.GET = "POST, OPTIONS" :=
  ⟨allowed_amended rGetPost "/x" Method.GET (by decide) (by decide), by decide⟩

/-- C2: `Router::handle` fails fast (panics, modelled as `none`) for every
pattern that does not begin with `'/'`, registering nothing; for a pattern
that does begin with `'/'`, any successful registration is exactly the
delegation of the pattern and handler to `add_route` on the method's tree
(the existing tree, or a fresh default one), leaving every other method's
tree untouched. -/
theorem handle_guard_and_delegate {T : Type} (r : Router T) (m : Method) (path : String)
    (v : T) :
    (startsWithSlash path = false → Router.handle r m path v = none) ∧
    (∀ r', Router.handle r m path v = some r' →
      startsWithSlash path = true ∧
      getTree r'.trees m = ((getTree r.trees m).getD Node.empty).add_route path v ∧
      ∀ m', m' ≠ m → getTree r'.trees m' = getTree r.trees m') := by
  constructor
  · intro h
    simp [Router.handle, h]
  · intro r' hr'
    unfold Router.handle at hr'
    cases hsw : startsWithSlash path with
    | false => rw [hsw] at hr'; simp at hr'
    | true =>
      rw [hsw] at hr'
      simp only [Bool.not_true, Bool.false_eq_true, if_false] at hr'
      refine ⟨rfl, ?_⟩
      cases hadd : ((getTree r.trees m).getD Node.empty).add_route path v with
      | none => rw [hadd] at hr'; simp at hr'
      | some t =>
        rw [hadd] at hr'
        simp only [Option.some.injEq] at hr'
        subst hr'
        exact ⟨getTree_updateTree_self r.trees m t,
          fun m' hm' => getTree_updateTree_ne r.trees m m' t hm'⟩

/-- C2 (witness): a pattern without a leading slash is rejected with nothing
registered; a well-formed registration lands in the `GET` tree via
`add_route`. -/
theorem handle_guard_and_delegate_witness :
    Router.handle (Router.default : Router Nat) Method.GET "foo" 0 = none ∧
    getTree rX.trees Method.GET =
      ((getTree (Router.default : Router Nat).trees Method.GET).getD Node.empty).add_route
        "/x" 0 :=
  ⟨(handle_guard_and_delegate Router.default Method.GET "foo" 0).1 (by decide),
    ((handle_guard_and_delegate Router.default Method.GET "/x" 0).2 rX (by decide)).2.1⟩

/-- C3: when the lookup misses with `tsr = true`, the method is not
`CONNECT`, the path is not `"/"` and `redirect_trailing_slash` is on,
`serve` answers a redirect whose location is the path with the trailing
slash removed (when it ends in `'/'` and is longer than one character) or
added, with status 301 for `GET` and 308 for every other method. -/
theorem serve_tsr_redirect {T : Type} (r : Router T) (root : Node T) (method : Method)
    (path : String)
    (hm : method ≠ Method.CONNECT) (hp : path ≠ "/")
    (hroot : getTree r.trees method = some root)
    (hv : root.get_value path = Except.error true)
    (hrts : r.redirect_trailing_slash = true) :
    r.serve method path =
      ServeOutcome.redirect
        (if path.length > 1 ∧ path.toList.getLast? = some '/'
         then String.mk path.toList.dropLast
         else path ++ "/")
        (if method = Method.GET then 301 else 308) := by
  unfold Router.serve
  simp only [hroot, hv]
  rw [if_pos ⟨hm, hp⟩, hrts]
  simp

/-- C3 (witness): `/foo` is registered for `GET`; `GET /foo/` is redirected
to `/foo` with status 301. -/
theorem serve_tsr_redirect_witness :
    Router.serve rFoo Method.GET "/foo/" = ServeOutcome.redirect "/foo" 301 :=
  (serve_tsr_redirect rFoo nodeFoo Method.GET "/foo/" (by decide) (by decide) (by decide)
    (by decide) (by decide)).trans (by decide)

/-- C4: when the lookup misses, no trailing-slash redirect fires, and
`redirect_fixed_path` is on, `serve` consults
`find_case_insensitive_path` on `clean_path(path)` with `fix_trailing_slash`
equal to the `redirect_trailing_slash` setting, and a `Some(fixed_path)`
answer becomes a redirect to `fixed_path` with the same method-dependent
status (301 for `GET`, 308 otherwise). -/
theorem serve_fixed_path_redirect {T : Type} (r : Router T) (root : Node T) (method : Method)
    (path fixed_path : String) (tsr : Bool)
    (hm : method ≠ Method.CONNECT) (hp : path ≠ "/")
    (hroot : getTree r.trees method = some root)
    (hv : root.get_value path = Except.error tsr)
    (hnotsr : (tsr && r.redirect_trailing_slash) = false)
    (hfp : r.redirect_fixed_path = true)
    (hci : root.find_case_insensitive_path (clean_path path) r.redirect_trailing_slash =
      some fixed_path) :
    r.serve method path =
      ServeOutcome.redirect fixed_path (if method = Method.GET then 301 else 308) := by
  unfold Router.serve
  simp only [hroot, hv]
  rw [if_pos ⟨hm, hp⟩, hnotsr, hfp]
  simp [hci]

/-- C4 (witness): `/Foo` is registered for `POST`; `POST /fOO` misses, is
not a TSR case, and is redirected to the canonical-case `/Foo` with
status 308. -/
theorem serve_fixed_path_redirect_witness :
    Router.serve rCased Method.POST "/fOO" = ServeOutcome.redirect "/Foo" 308 :=
  (serve_fixed_path_redirect rCased nodeCased Method.POST "/fOO" "/Foo" false (by decide)
    (by decide) (by decide) (by decide) (by decide) (by decide) (by decide)).trans (by decide)

/-- C5: `Router::lookup` is total on the miss side — every call returns
either a match or a structured boolean miss; there is no third outcome. -/
theorem lookup_total {T : Type} (r : Router T) (m : Method) (p : String) :
    (∃ l, r.lookup m p = Except.ok l) ∨ (∃ b, r.lookup m p = Except.error b) := by
  cases h : r.lookup m p with
  | ok l => exact Or.inl ⟨l, rfl⟩
  | error b => exact Or.inr ⟨b, rfl⟩

/-- C6: the state-passing form of `Router::lookup` (the tree handed to
`get_value`, which is read-only, is put back where it was) returns the
router unchanged — lookups never mutate the tree map or any tree. -/
theorem lookup_frame {T : Type} (r : Router T) (m : Method) (p : String) :
    (Router.lookup_st r m p).2 = r :=
  lookupStPreserves r m p

/-- C7: two sequential lookups of the same method and path, the second run
on the state left by the first, return equal results (and equal final
states). -/
theorem lookup_idempotent {T : Type} (r : Router T) (m : Method) (p : String) :
    Router.lookup_st (Router.lookup_st r m p).2 m p = Router.lookup_st r m p := by
  rw [lookupStPreserves]

/-- C8: registering `/user/:id` and then `/user/:name` for one method fails
at the second registration call (two named parameters with different names
at the same branch point), and never succeeds silently. -/
theorem conflicting_wildcards_fail :
    Router.handle (Router.default : Router Nat) Method.GET "/user/:id" 0 = some rUser ∧
    Router.handle rUser Method.GET "/user/:name" 1 = none := by
  refine ⟨by decide, by decide⟩

/-- C9: for a method with no registered tree, `Router::lookup` returns
`Err(false)` — a plain miss with the TSR flag cleared — for every path. -/
theorem lookup_no_tree {T : Type} (r : Router T) (method : Method) (path : String)
    (h : getTree r.trees method = none) :
    r.lookup method path = Except.error false := by
  unfold Router.lookup
  rw [h]

/-- C9 (witness): the default router has no trees at all. -/
theorem lookup_no_tree_witness :
    Router.lookup (Router.default : Router Nat) Method.GET "/" = Except.error false :=
  lookup_no_tree Router.default Method.GET "/" rfl

/-- C10: `Router::serve` never answers a redirect for a `CONNECT` request
or for the root path `"/"`, whatever the miss flag and the redirect
settings — such requests fall through to the `OPTIONS` / `405` /
`not_found` tail. -/
theorem serve_no_redirect_connect_or_root {T : Type} (r : Router T) (method : Method)
    (path : String) (h : method = Method.CONNECT ∨ path = "/") (loc : String) (code : Nat) :
    r.serve method path ≠ ServeOutcome.redirect loc code := by
  have hguard : ¬(method ≠ Method.CONNECT ∧ path ≠ "/") := by
    rcases h with h | h
    · exact fun hc => hc.1 h
    · exact fun hc => hc.2 h
  unfold Router.serve
  cases hroot : getTree r.trees method with
  | none => exact serveFallback_ne_redirect r method path loc code
  | some root =>
    cases hv : root.get_value path with
    | ok lookup => simp [hv]
    | error tsr =>
      simp only [hv]
      rw [if_neg hguard]
      exact serveFallback_ne_redirect r method path loc code

/-- C10 (witness): a `CONNECT` request in a TSR situation with all redirect
options on is still not redirected. -/
theorem serve_no_redirect_connect_or_root_witness :
    Router.serve rConnect Method.CONNECT "/foo/" ≠ ServeOutcome.redirect "/foo" 308 :=
  serve_no_redirect_connect_or_root rConnect Method.CONNECT "/foo/" (Or.inl rfl) "/foo" 308

